import Mathlib

/-!
Verification of `lincer.py`, a pipeline that discovers and classifies novel
lncRNA transcripts.  Each stage of the pipeline is embedded shallowly:
pandas tables become lists of records, masked column assignments become
conditional updates, and Python exceptions become `Option`/error flags.
-/

namespace Lincer

/-! ### GTF attribute extraction (`lincer.py` string splitting)

The source extracts attribute values with
`line.split(key)[1].split('"')[1]`.  `pyPart s sep i` models Python's
`s.split(sep)[i]`, with `none` standing for an `IndexError`. -/

/-- Split a character list on each non-overlapping occurrence of `sep`,
scanning left to right — the semantics of Python's `str.split` with a
non-empty separator.  `fuel` only bounds the recursion; it is always called
with the length of the scanned list, which suffices because every step
consumes at least one character. -/
def charSplit (sep : List Char) : Nat → List Char → List Char → List (List Char)
  | _, acc, [] => [acc.reverse]
  | 0, acc, s => [acc.reverse ++ s]
  | fuel + 1, acc, c :: rest =>
    if sep.isPrefixOf (c :: rest) then
      acc.reverse :: charSplit sep fuel [] ((c :: rest).drop sep.length)
    else
      charSplit sep fuel (c :: acc) rest

/-- Python `s.split(sep)` for a non-empty separator. -/
def pySplit (s sep : String) : List String :=
  (charSplit sep.data s.data.length [] s.data).map (fun l => String.mk l)

/-- Python `s.split(sep)[i]`: part `i` of the split, `none` on IndexError. -/
def pyPart (s sep : String) (i : Nat) : Option String :=
  (pySplit s sep)[i]?

/-- The first quoted value after the first occurrence of `key`, exactly as
`line.split(key)[1].split('"')[1]` computes it; `none` models the
`IndexError` Python raises when `key` (or the quotes) are missing. -/
def extractAttr (line key : String) : Option String := do
  let rest ← pyPart line key 1
  pyPart rest "\"" 1

/-! ### Classifier (`classify_novel_transcripts`, lincer.py lines 192-202)

One row of the joined comparison table `novel_vs_ref.join(novel_vs_lnc)`:
columns suffixed `__all` come from the comparison against the full
reference, columns suffixed `__lnc` from the comparison against the known
lncRNA catalog.  Missing values (pandas `NaN`, possible because the join is
a left join) are modelled by `none`. -/

structure ClassRec where
  class_code__all : Option String
  ref_id__all : Option String
  ref_gene_id__all : Option String
  class_code__lnc : Option String
  ref_id__lnc : Option String
  ref_gene_id__lnc : Option String
deriving DecidableEq, Repr

/-- pandas elementwise `!=` between two columns: any comparison involving a
missing value (`NaN`) yields `True`. -/
def pandasNe : Option String → Option String → Bool
  | some a, some b => a != b
  | _, _ => true

/-- Rule 1 condition, line 193: `x.class_code__lnc == '='`. -/
def cond1 (r : ClassRec) : Bool := r.class_code__lnc == some "="

/-- Rule 2 condition, lines 194-196. -/
def cond2 (r : ClassRec) : Bool :=
  (r.class_code__lnc == some "j") && (r.class_code__all == some "j")
    && pandasNe r.ref_gene_id__lnc r.ref_gene_id__all

/-- Rule 3 condition, line 197: `x.class_code__lnc == 'j'`. -/
def cond3 (r : ClassRec) : Bool := r.class_code__lnc == some "j"

/-- Rule 4 condition, line 198: `x.class_code__all == 'u'`. -/
def cond4 (r : ClassRec) : Bool := r.class_code__all == some "u"

/-- Rule 5 condition, lines 199-200. -/
def cond5 (r : ClassRec) : Bool :=
  (r.class_code__all == some "x") && (r.class_code__lnc == some "u")

/-- Rule 6 condition, line 201: `x.class_code__all == 'i'`. -/
def cond6 (r : ClassRec) : Bool := r.class_code__all == some "i"

/-- One masked assignment
`x.loc[(x.classification == '.') & cond, 'classification'] = label`:
the label is written only where the classification is still the
placeholder `'.'`. -/
def applyRule (cond : ClassRec → Bool) (label : String) (r : ClassRec) (c : String) : String :=
  if c = "." ∧ cond r = true then label else c

/-- Lines 192-202 of `classify_novel_transcripts`: start every row at `'.'`,
apply the six masked rule assignments in program order, then replace any
remaining `'.'` by `not_a_lncRNA`. -/
def classify (r : ClassRec) : String :=
  let c := "."
  let c := applyRule cond1 "known_isoform" r c
  let c := applyRule cond2 "possible_artifact" r c
  let c := applyRule cond3 "novel_isoform" r c
  let c := applyRule cond4 "intergenic" r c
  let c := applyRule cond5 "antisense" r c
  let c := applyRule cond6 "intronic" r c
  if c = "." then "not_a_lncRNA" else c

/-- Modelled from the spec, section 4.7: the ordered rule table. -/
def specRules : List ((ClassRec → Bool) × String) :=
  [(cond1, "known_isoform"), (cond2, "possible_artifact"), (cond3, "novel_isoform"),
   (cond4, "intergenic"), (cond5, "antisense"), (cond6, "intronic")]

/-- Modelled from the spec, section 4.7: apply the rules in fixed priority
order, first match wins, default `not_a_lncRNA`. -/
def specClassify (r : ClassRec) : String :=
  match specRules.find? (fun p => p.1 r) with
  | some p => p.2
  | none => "not_a_lncRNA"

/-- A record cannot satisfy the rule-1 and rule-3 conditions at once: its
`class_code__lnc` cannot be both `'='` and `'j'`. -/
lemma cond1_cond3_incompatible {r : ClassRec} (h1 : cond1 r = true) (h3 : cond3 r = true) :
    False := by
  unfold cond1 at h1
  unfold cond3 at h3
  rw [beq_iff_eq] at h1 h3
  rw [h1] at h3
  simp at h3

/-- The seven classification labels of the data model. -/
def classificationLabels : List String :=
  ["known_isoform", "possible_artifact", "novel_isoform", "intergenic",
   "antisense", "intronic", "not_a_lncRNA"]

/-- C1: the classifier is the first-match-wins evaluation of the seven rules
in priority order 1-7; a record satisfying the rule-1 condition (hence also
any record satisfying both the rule-1 and the rule-3 condition) is labelled
`known_isoform`; a record satisfying the rule-2 condition together with the
rule-3 condition is labelled `possible_artifact`; a record satisfying none
of the rule-1 to rule-6 conditions is labelled `not_a_lncRNA`. -/
theorem classifier_priority_order (r : ClassRec) :
    classify r = specClassify r
    ∧ (cond1 r = true → classify r = "known_isoform")
    ∧ (cond2 r = true ∧ cond3 r = true → classify r = "possible_artifact")
    ∧ (cond1 r = false ∧ cond2 r = false ∧ cond3 r = false ∧ cond4 r = false
        ∧ cond5 r = false ∧ cond6 r = false → classify r = "not_a_lncRNA") := by
  cases h1 : cond1 r <;> cases h2 : cond2 r <;> cases h3 : cond3 r <;>
    cases h4 : cond4 r <;> cases h5 : cond5 r <;> cases h6 : cond6 r <;>
    simp [classify, specClassify, specRules, applyRule, List.find?, h1, h2, h3, h4, h5, h6] <;>
    exact cond1_cond3_incompatible h1 h3

/-- Witness for C1: concrete records exercising each discharged hypothesis. -/
theorem classifier_priority_order_witness :
    classify { class_code__all := some "u", ref_id__all := none, ref_gene_id__all := none,
               class_code__lnc := some "=", ref_id__lnc := some "L1",
               ref_gene_id__lnc := some "LG1" } = "known_isoform"
    ∧ classify { class_code__all := some "j", ref_id__all := some "R1",
                 ref_gene_id__all := some "RG1", class_code__lnc := some "j",
                 ref_id__lnc := some "L1", ref_gene_id__lnc := some "LG1" } = "possible_artifact"
    ∧ classify { class_code__all := some "=", ref_id__all := some "R1",
                 ref_gene_id__all := some "RG1", class_code__lnc := none,
                 ref_id__lnc := none, ref_gene_id__lnc := none } = "not_a_lncRNA" :=
  ⟨(classifier_priority_order _).2.1 (by decide),
   (classifier_priority_order _).2.2.1 (by decide),
   (classifier_priority_order _).2.2.2 (by decide)⟩

/-- C2: every classification record receives exactly one of the seven
pairwise-distinct labels; the default is `not_a_lncRNA`, assigned exactly
when no rule condition fires. -/
theorem classifier_labels_exhaustive :
    classificationLabels.Nodup
    ∧ (∀ r : ClassRec, classify r ∈ classificationLabels)
    ∧ (∀ r : ClassRec, classify r = "not_a_lncRNA" ↔
        (cond1 r = false ∧ cond2 r = false ∧ cond3 r = false ∧ cond4 r = false
          ∧ cond5 r = false ∧ cond6 r = false)) := by
  refine ⟨by decide, ?_, ?_⟩ <;> intro r <;>
    cases h1 : cond1 r <;> cases h2 : cond2 r <;> cases h3 : cond3 r <;>
      cases h4 : cond4 r <;> cases h5 : cond5 r <;> cases h6 : cond6 r <;>
      simp [classify, classificationLabels, applyRule, h1, h2, h3, h4, h5, h6]

/-! ### Novelty Filter (`find_novel_transcripts`, lincer.py lines 86-95)

One row of the joined summary table
`t_length.join(t_num_exons).join(t_coverage).join(t_class_code)`.
`DataFrame.join` is a left join, so a transcript with no comparison row
gets a `NaN` class code, modelled by `none`. -/

structure SummaryRow where
  length : Int
  exons : Nat
  coverage : Rat
  class_code : Option String
deriving DecidableEq, Repr

/-- pandas `Series.isin`: a missing value (`NaN`) is never in the list. -/
def pdIsin (v : Option String) (vals : List String) : Bool :=
  match v with
  | some s => vals.contains s
  | none => false

/-- The filter mask of lines 90-95:
`(y.length >= 200) & (y.exons > 1) & (y.coverage >= 3.0)
  & (y.class_code.isin(['u', 'j', 'i', 'x']))`. -/
def passesFilter (y : SummaryRow) : Bool :=
  decide (y.length ≥ 200) && decide (y.exons > 1) && decide (y.coverage ≥ 3)
    && pdIsin y.class_code ["u", "j", "i", "x"]

/-- The per-transcript summary of the aggregation stage (before the join
with the comparison table). -/
structure TSummary where
  length : Int
  exons : Nat
  coverage : Rat
deriving DecidableEq, Repr

/-- Line 86: left-join the per-transcript summaries with the comparison
table (keyed association list of class codes). -/
def joinClassCodes (ts : List (String × TSummary)) (codes : List (String × String)) :
    List (String × SummaryRow) :=
  ts.map (fun p =>
    (p.1, { length := p.2.length, exons := p.2.exons, coverage := p.2.coverage,
            class_code := (codes.find? (fun c => c.1 == p.1)).map (fun c => c.2) }))

/-- Row selection `z = y[mask]` of lines 90-95. -/
def findNovelFilter (rows : List (String × SummaryRow)) : List (String × SummaryRow) :=
  rows.filter (fun p => passesFilter p.2)

/-- C3: a transcript passes the Novelty Filter iff all four predicates hold;
each predicate is individually necessary (a row failing exactly one of the
four is rejected while a row meeting all four is kept); and a transcript
summary whose key has no row in the comparison table is excluded from the
filter output. -/
theorem novelty_filter_conjunction :
    (∀ y : SummaryRow, passesFilter y = true ↔
      (200 ≤ y.length ∧ 1 < y.exons ∧ 3 ≤ y.coverage
        ∧ ∃ c, y.class_code = some c ∧ c ∈ (["u", "j", "i", "x"] : List String)))
    ∧ (∀ rows p, p ∈ findNovelFilter rows ↔ p ∈ rows ∧ passesFilter p.2 = true)
    ∧ (passesFilter { length := 199, exons := 2, coverage := 5, class_code := some "u" } = false
       ∧ passesFilter { length := 200, exons := 1, coverage := 5, class_code := some "u" } = false
       ∧ passesFilter { length := 200, exons := 2, coverage := 2, class_code := some "u" } = false
       ∧ passesFilter { length := 200, exons := 2, coverage := 5, class_code := some "=" } = false
       ∧ passesFilter { length := 200, exons := 2, coverage := 5, class_code := some "u" } = true)
    ∧ (∀ ts codes tid s, codes.find? (fun c => c.1 == tid) = none →
        (tid, s) ∉ findNovelFilter (joinClassCodes ts codes)) := by
  refine ⟨?_, ?_, by decide, ?_⟩
  · intro y
    cases hc : y.class_code <;>
      simp [passesFilter, pdIsin, hc, and_assoc]
  · intro rows p
    simp [findNovelFilter, List.mem_filter]
  · intro ts codes tid s hnone hmem
    simp only [findNovelFilter, List.mem_filter, joinClassCodes, List.mem_map] at hmem
    obtain ⟨⟨q, _, hq⟩, hpass⟩ := hmem
    rw [Prod.mk.injEq] at hq
    obtain ⟨htid, hs⟩ := hq
    rw [htid, hnone] at hs
    rw [← hs] at hpass
    simp [passesFilter, pdIsin] at hpass

/-- Witness for C3: the excluded-when-unjoined conjunct applied at a
concrete summary table and an empty comparison table. -/
theorem novelty_filter_conjunction_witness :
    ("t1", ({ length := 500, exons := 2, coverage := 5, class_code := none } : SummaryRow)) ∉
      findNovelFilter (joinClassCodes
        [("t1", { length := 500, exons := 2, coverage := 5 })] []) :=
  novelty_filter_conjunction.2.2.2 _ _ "t1" _ rfl

/-! ### Comparison Adapter (`_get_cuffcompare_class_codes`, lincer.py lines 100-134)

The filesystem effects of the adapter: which path is handed to
`cuffcompare`, whether the adapter created a symlink, and whether the
symlink and the `cuffcmp.*` artifact files still exist when the function
returns or raises.  `subprocess.check_call` raising on a non-zero exit is
modelled by the `raised` flag: when it is set, the statements after the
call (including the cleanup loop) never ran. -/

structure Fs where
  invoked : String
  createdSymlink : Bool
  symlinkPresent : Bool
  junkPresent : Bool
deriving DecidableEq, Repr

structure AdapterOutcome where
  fs : Fs
  raised : Bool
deriving DecidableEq, Repr

/-- Python `gtf.split('/')[-1]`. -/
def pyBasename (p : String) : String :=
  (pySplit p "/").getLastD ""

/-- Lines 100-134 of `_get_cuffcompare_class_codes`.  `localExists` is
`os.path.exists(gtf_local)` at entry; `toolOk` tells whether `cuffcompare`
exits zero.  The `cuffcmp.stdout`/`cuffcmp.stderr` handles are opened (and
`cuffcompare` writes its `cuffcmp.*` outputs) before the exit status is
checked, so the junk files exist in either case. -/
def getCuffcompareClassCodes (gtf : String) (localExists toolOk : Bool) : AdapterOutcome :=
  let gtf_local := pyBasename gtf
  let symlink_created := !localExists
  let s1 : Fs := { invoked := gtf_local, createdSymlink := symlink_created,
                   symlinkPresent := symlink_created, junkPresent := true }
  if toolOk then
    let s2 : Fs := { s1 with junkPresent := false }
    let s3 : Fs := if symlink_created then { s2 with symlinkPresent := false } else s2
    { fs := s3, raised := false }
  else
    { fs := s1, raised := true }

/-- C4 counterexample: with the query outside the working directory and the
comparator exiting non-zero, the adapter raises with the symlink it created
still present and the `cuffcmp.*` artifacts still on disk. -/
theorem adapter_cleanup_counterexample :
    (getCuffcompareClassCodes "data/sample.gtf" false false).fs.createdSymlink = true
    ∧ (getCuffcompareClassCodes "data/sample.gtf" false false).raised = true
    ∧ (getCuffcompareClassCodes "data/sample.gtf" false false).fs.symlinkPresent = true
    ∧ (getCuffcompareClassCodes "data/sample.gtf" false false).fs.junkPresent = true := by
  decide

/-- C4 amended: the temporary symlink and the `cuffcmp.*` artifacts are
removed when the comparator exits zero; on a non-zero exit the exception
propagates before the cleanup statements run, leaving the artifacts and the
created symlink behind. -/
theorem adapter_cleanup_on_success_only (gtf : String) (localExists toolOk : Bool) :
    (getCuffcompareClassCodes gtf localExists toolOk).fs.junkPresent = !toolOk
    ∧ (getCuffcompareClassCodes gtf localExists toolOk).fs.symlinkPresent
        = (!toolOk && !localExists) := by
  cases localExists <;> cases toolOk <;>
    simp [getCuffcompareClassCodes]

/-- C10: when a file with the query's basename already exists in the working
directory, no symlink is created and the comparator is invoked on that local
basename — which, for a query path in another directory (the concrete path
below), is not the caller-supplied query file. -/
theorem adapter_uses_preexisting_local_file (gtf : String) (toolOk : Bool) :
    (getCuffcompareClassCodes gtf true toolOk).fs.createdSymlink = false
    ∧ (getCuffcompareClassCodes gtf true toolOk).fs.invoked = pyBasename gtf
    ∧ pyBasename "data/sample.gtf" ≠ "data/sample.gtf" := by
  refine ⟨?_, ?_, by decide⟩ <;> cases toolOk <;> simp [getCuffcompareClassCodes]

/-! ### GTF Line Selector (`_filter_gtf_by_transcript`, lincer.py lines 136-155)

The input is the list of lines exactly as Python's file iteration yields
them: every line keeps its trailing newline (an empty line in the file is
the string `"\n"`).  A `none` result models the `IndexError` raised when a
non-skipped line has no `transcript_id` attribute. -/

/-- Line 144: `len(line) == 0 or line[0] == '#'`. -/
def skipLine (line : String) : Bool :=
  line.data.length == 0 || line.data.headD ' ' == '#'

/-- Lines 141-152: stream the lines, skip per `skipLine`, extract the
`transcript_id`, and keep the line verbatim iff the id is in the keep
set. -/
def filterGtfByTranscript (keep : List String) : List String → Option (List String)
  | [] => some []
  | line :: rest =>
    if skipLine line then filterGtfByTranscript keep rest
    else
      match extractAttr line "transcript_id" with
      | none => none
      | some tid =>
        match filterGtfByTranscript keep rest with
        | none => none
        | some out => some (if keep.contains tid then line :: out else out)

/-- The per-line keep decision: not skippable, and the extracted
`transcript_id` is a member of the keep set. -/
def keepLine (keep : List String) (line : String) : Bool :=
  !skipLine line && (extractAttr line "transcript_id").any (fun tid => keep.contains tid)

/-- C6: when the selector succeeds, its output is exactly the sublist of
input lines whose extracted `transcript_id` is in the keep set (among
non-skippable lines): every written line is byte-identical to an input line
and the relative input order is preserved. -/
theorem gtf_selector_fidelity (keep : List String) :
    ∀ lines out, filterGtfByTranscript keep lines = some out →
      out = lines.filter (keepLine keep) ∧ List.Sublist out lines := by
  have he : ∀ lines out, filterGtfByTranscript keep lines = some out →
      out = lines.filter (keepLine keep) := by
    intro lines
    induction lines with
    | nil =>
      intro out h
      rw [filterGtfByTranscript] at h
      cases h
      rfl
    | cons line rest ih =>
      intro out h
      rw [filterGtfByTranscript] at h
      cases hskip : skipLine line with
      | true =>
        rw [hskip, if_pos rfl] at h
        have hkl : keepLine keep line = false := by
          simp [keepLine, hskip]
        rw [List.filter_cons, hkl]
        exact ih out h
      | false =>
        rw [hskip] at h
        simp only [Bool.false_eq_true, if_false] at h
        cases hex : extractAttr line "transcript_id" with
        | none => rw [hex] at h; cases h
        | some tid =>
          rw [hex] at h
          cases hrec : filterGtfByTranscript keep rest with
          | none => rw [hrec] at h; cases h
          | some out2 =>
            rw [hrec] at h
            have hkl : keepLine keep line = keep.contains tid := by
              simp [keepLine, hskip, hex]
            cases h
            rw [List.filter_cons, hkl]
            cases hk : keep.contains tid <;>
              simp [hk, ih out2 hrec]
  intro lines out h
  refine ⟨he lines out h, ?_⟩
  rw [he lines out h]
  exact List.filter_sublist _

/-- Witness for C6: a keep line, a comment line and a dropped line. -/
theorem gtf_selector_fidelity_witness :
    ["chr1\texon\t1\t9\tgene_id \"G1\"; transcript_id \"T1\";\n",
     "# comment\n",
     "chr1\texon\t2\t8\tgene_id \"G1\"; transcript_id \"T2\";\n"].filter (keepLine ["T1"])
      = ["chr1\texon\t1\t9\tgene_id \"G1\"; transcript_id \"T1\";\n"]
    ∧ List.Sublist ["chr1\texon\t1\t9\tgene_id \"G1\"; transcript_id \"T1\";\n"]
        ["chr1\texon\t1\t9\tgene_id \"G1\"; transcript_id \"T1\";\n",
         "# comment\n",
         "chr1\texon\t2\t8\tgene_id \"G1\"; transcript_id \"T2\";\n"] := by
  have h := gtf_selector_fidelity ["T1"]
    ["chr1\texon\t1\t9\tgene_id \"G1\"; transcript_id \"T1\";\n",
     "# comment\n",
     "chr1\texon\t2\t8\tgene_id \"G1\"; transcript_id \"T2\";\n"]
    ["chr1\texon\t1\t9\tgene_id \"G1\"; transcript_id \"T1\";\n"] (by decide)
  exact ⟨h.1.symm, h.2⟩

/-- C7: an empty line read from a file is the string `"\n"`, which fails the
`len(line) == 0` test and is not a comment, so the selector attempts
`transcript_id` extraction on it and raises `IndexError` (modelled by
`none`); a length-zero string and a `#` comment, by contrast, are skipped
as the code's own comment promises. -/
theorem selector_error_on_blank_line :
    filterGtfByTranscript ["T1"]
        ["chr1\texon\t1\t9\tgene_id \"G1\"; transcript_id \"T1\";\n", "\n"] = none
    ∧ filterGtfByTranscript ["T1"] ["", "# comment\n"] = some [] := by
  decide

/-! ### Grouped aggregation (pandas `groupby` + `sum`/`max`/`min`)

`groupFold f pairs` folds a keyed list into an association list, combining
the values of equal keys with `f` — the shallow embedding of
`DataFrame.groupby(key).agg(f)`.  `alookup` is lookup by key. -/

/-- Insert `(ki, v)` into an association list, combining with `f` when the
key is already present. -/
def upsert (f : β → β → β) (ki : String) (v : β) : List (String × β) → List (String × β)
  | [] => [(ki, v)]
  | (k2, v2) :: rest =>
    if k2 = ki then (k2, f v2 v) :: rest else (k2, v2) :: upsert f ki v rest

/-- `groupby(key).agg(f)` as a fold of `upsert` over the keyed rows. -/
def groupFold (f : β → β → β) (pairs : List (String × β)) : List (String × β) :=
  pairs.foldl (fun acc p => upsert f p.1 p.2 acc) []

/-- Lookup by key in an association list. -/
def alookup (kq : String) (l : List (String × β)) : Option β :=
  (l.find? (fun p => p.1 == kq)).map (fun p => p.2)

/-- Fold `f` over a value list, starting from an optional accumulator. -/
def accumOpt (f : β → β → β) : Option β → List β → Option β
  | o, [] => o
  | none, v :: vs => accumOpt f (some v) vs
  | some w, v :: vs => accumOpt f (some (f w v)) vs

lemma accumOpt_cons (f : β → β → β) (o : Option β) (v : β) (vs : List β) :
    accumOpt f o (v :: vs)
      = accumOpt f (some (match o with | none => v | some w => f w v)) vs := by
  cases o <;> rfl

lemma accumOpt_some (f : β → β → β) (w : β) :
    ∀ vs : List β, accumOpt f (some w) vs = some (vs.foldl f w) := by
  intro vs
  induction vs generalizing w with
  | nil => rfl
  | cons v vs ih => rw [accumOpt, List.foldl_cons, ih]

lemma alookup_nil (kq : String) : alookup kq ([] : List (String × β)) = none := rfl

lemma alookup_cons (kq k2 : String) (v2 : β) (rest : List (String × β)) :
    alookup kq ((k2, v2) :: rest) = if k2 = kq then some v2 else alookup kq rest := by
  by_cases h : k2 = kq
  · have hb : (k2 == kq) = true := by simp [h]
    simp [alookup, List.find?, hb, h]
  · have hb : (k2 == kq) = false := by simp [h]
    simp [alookup, List.find?, hb, h]

lemma alookup_upsert (f : β → β → β) (kq ki : String) (v : β) :
    ∀ l : List (String × β),
      alookup kq (upsert f ki v l) =
        if ki = kq then
          (match alookup kq l with | none => some v | some w => some (f w v))
        else alookup kq l := by
  intro l
  induction l with
  | nil =>
    rw [upsert, alookup_cons]
    by_cases h : ki = kq <;> simp [h, alookup_nil]
  | cons p rest ih =>
    obtain ⟨k2, v2⟩ := p
    rw [upsert]
    by_cases h2 : k2 = ki
    · rw [if_pos h2]
      subst h2
      by_cases h : k2 = kq <;> simp [alookup_cons, h]
    · rw [if_neg h2, alookup_cons]
      by_cases h : k2 = kq
      · have hne : ki ≠ kq := fun he => h2 (h.trans he.symm)
        simp [alookup_cons, h, hne]
      · simp [alookup_cons, h, ih]

lemma alookup_foldl_upsert (f : β → β → β) (kq : String) :
    ∀ (pairs acc : List (String × β)),
      alookup kq (pairs.foldl (fun a p => upsert f p.1 p.2 a) acc)
        = accumOpt f (alookup kq acc)
            ((pairs.filter (fun p => p.1 == kq)).map (fun p => p.2)) := by
  intro pairs
  induction pairs with
  | nil => intro acc; simp [accumOpt]
  | cons p rest ih =>
    intro acc
    rw [List.foldl_cons, ih, alookup_upsert]
    by_cases h : p.1 = kq
    · rw [if_pos h]
      have hb : (p.1 == kq) = true := by simp [h]
      rw [List.filter_cons, hb, if_pos rfl, List.map_cons, accumOpt_cons]
      cases halc : alookup kq acc <;> simp
    · rw [if_neg h]
      have hb : (p.1 == kq) = false := by simp [h]
      rw [List.filter_cons, hb]
      simp

lemma alookup_groupFold (f : β → β → β) (kq : String) (pairs : List (String × β)) :
    alookup kq (groupFold f pairs)
      = accumOpt f none ((pairs.filter (fun p => p.1 == kq)).map (fun p => p.2)) := by
  rw [groupFold, alookup_foldl_upsert]
  rfl

lemma filter_map_key (g : α → String × β) (kq : String) :
    ∀ l : List α,
      (l.map g).filter (fun p => p.1 == kq) = (l.filter (fun a => (g a).1 == kq)).map g := by
  intro l
  induction l with
  | nil => rfl
  | cons a t ih =>
    rw [List.map_cons, List.filter_cons, List.filter_cons]
    cases h : ((g a).1 == kq) <;> simp [h, ih]

lemma foldl_add_eq (v : Int) : ∀ vs : List Int, vs.foldl (· + ·) v = v + vs.sum := by
  intro vs
  induction vs generalizing v with
  | nil => simp
  | cons w ws ih => rw [List.foldl_cons, ih, List.sum_cons, add_assoc]

lemma sum_map_one (l : List α) : (l.map (fun _ => (1 : Int))).sum = l.length := by
  induction l with
  | nil => rfl
  | cons a t ih =>
    rw [List.map_cons, List.sum_cons, ih, List.length_cons]
    push_cast
    ring

lemma foldl_max_mem [LinearOrder β] (v : β) : ∀ vs : List β, vs.foldl max v ∈ v :: vs := by
  intro vs
  induction vs generalizing v with
  | nil => simp
  | cons w ws ih =>
    rw [List.foldl_cons]
    rcases List.mem_cons.mp (ih (max v w)) with h1 | h1
    · rw [h1]
      rcases max_choice v w with h2 | h2 <;> rw [h2]
      · exact List.mem_cons_self _ _
      · exact List.mem_cons_of_mem _ (List.mem_cons_self _ _)
    · exact List.mem_cons_of_mem _ (List.mem_cons_of_mem _ h1)

lemma le_foldl_max [LinearOrder β] (v : β) :
    ∀ vs : List β, ∀ c ∈ v :: vs, c ≤ vs.foldl max v := by
  intro vs
  induction vs generalizing v with
  | nil =>
    intro c hc
    rw [List.mem_singleton] at hc
    exact hc.le
  | cons w ws ih =>
    intro c hc
    rw [List.foldl_cons]
    rcases List.mem_cons.mp hc with h | h
    · exact h.le.trans ((le_max_left v w).trans (ih (max v w) _ (List.mem_cons_self _ _)))
    · rcases List.mem_cons.mp h with h2 | h2
      · exact h2.le.trans ((le_max_right v w).trans (ih (max v w) _ (List.mem_cons_self _ _)))
      · exact ih (max v w) c (List.mem_cons_of_mem _ h2)

lemma foldl_min_mem [LinearOrder β] (v : β) : ∀ vs : List β, vs.foldl min v ∈ v :: vs := by
  intro vs
  induction vs generalizing v with
  | nil => simp
  | cons w ws ih =>
    rw [List.foldl_cons]
    rcases List.mem_cons.mp (ih (min v w)) with h1 | h1
    · rw [h1]
      rcases min_choice v w with h2 | h2 <;> rw [h2]
      · exact List.mem_cons_self _ _
      · exact List.mem_cons_of_mem _ (List.mem_cons_self _ _)
    · exact List.mem_cons_of_mem _ (List.mem_cons_of_mem _ h1)

lemma foldl_min_le [LinearOrder β] (v : β) :
    ∀ vs : List β, ∀ c ∈ v :: vs, vs.foldl min v ≤ c := by
  intro vs
  induction vs generalizing v with
  | nil =>
    intro c hc
    rw [List.mem_singleton] at hc
    exact hc.ge
  | cons w ws ih =>
    intro c hc
    rw [List.foldl_cons]
    rcases List.mem_cons.mp hc with h | h
    · exact ((ih (min v w) _ (List.mem_cons_self _ _)).trans (min_le_left v w)).trans h.ge
    · rcases List.mem_cons.mp h with h2 | h2
      · exact ((ih (min v w) _ (List.mem_cons_self _ _)).trans (min_le_right v w)).trans h2.ge
      · exact ih (min v w) c (List.mem_cons_of_mem _ h2)

/-! ### Transcript Aggregator (`find_novel_transcripts`, lincer.py lines 64-80)

One row of the loaded GTF table after column extraction: the `feature`,
`start` and `end` columns plus the `gene_id`, `transcript_id` and `cov`
values pulled out of the attribute column (`end` is a reserved word here,
so the field is called `stop`). -/

structure ExonRow where
  feature : String
  start : Int
  stop : Int
  gene_id : String
  transcript_id : String
  cov : Rat
deriving DecidableEq, Repr

/-- Line 67: `x = x[x.feature == 'exon']`. -/
def exonRows (rows : List ExonRow) : List ExonRow :=
  rows.filter (fun r => r.feature == "exon")

/-- Line 78: `x.groupby('transcript_id')[['length']].sum()` with
`length = end - start + 1` (line 72). -/
def t_length (rows : List ExonRow) : List (String × Int) :=
  groupFold (· + ·) ((exonRows rows).map (fun r => (r.transcript_id, r.stop - r.start + 1)))

/-- Line 79: `x.groupby('transcript_id')[['exons']].sum()` with
`exons = 1` per record (line 73). -/
def t_num_exons (rows : List ExonRow) : List (String × Int) :=
  groupFold (· + ·) ((exonRows rows).map (fun r => (r.transcript_id, (1 : Int))))

/-- Line 80: `x.groupby('transcript_id')[['coverage']].max()`. -/
def t_coverage (rows : List ExonRow) : List (String × Rat) :=
  groupFold max ((exonRows rows).map (fun r => (r.transcript_id, r.cov)))

/-- C5: for a transcript `T` with a non-empty exon record set `E`, the
aggregated length is the sum of `end - start + 1` over `E`, the exon count
is `|E|`, and the coverage is the maximum of the exons' `cov` values; a
transcript with no exon records has no summary row. -/
theorem transcript_aggregation (rows : List ExonRow) (T : String) :
    ((exonRows rows).filter (fun r => r.transcript_id == T) ≠ [] →
      alookup T (t_length rows)
        = some ((((exonRows rows).filter (fun r => r.transcript_id == T)).map
            (fun r => r.stop - r.start + 1)).sum)
      ∧ alookup T (t_num_exons rows)
        = some (((exonRows rows).filter (fun r => r.transcript_id == T)).length)
      ∧ (∃ m, alookup T (t_coverage rows) = some m
          ∧ m ∈ ((exonRows rows).filter (fun r => r.transcript_id == T)).map (fun r => r.cov)
          ∧ ∀ c ∈ ((exonRows rows).filter (fun r => r.transcript_id == T)).map
              (fun r => r.cov), c ≤ m))
    ∧ ((exonRows rows).filter (fun r => r.transcript_id == T) = [] →
      alookup T (t_length rows) = none
      ∧ alookup T (t_num_exons rows) = none
      ∧ alookup T (t_coverage rows) = none) := by
  have hlen : alookup T (t_length rows)
      = accumOpt (· + ·) none
          (((exonRows rows).filter (fun r => r.transcript_id == T)).map
            (fun r => r.stop - r.start + 1)) := by
    rw [t_length, alookup_groupFold, filter_map_key, List.map_map]
    rfl
  have hcnt : alookup T (t_num_exons rows)
      = accumOpt (· + ·) none
          (((exonRows rows).filter (fun r => r.transcript_id == T)).map
            (fun _ => (1 : Int))) := by
    rw [t_num_exons, alookup_groupFold, filter_map_key, List.map_map]
    rfl
  have hcov : alookup T (t_coverage rows)
      = accumOpt max none
          (((exonRows rows).filter (fun r => r.transcript_id == T)).map
            (fun r => r.cov)) := by
    rw [t_coverage, alookup_groupFold, filter_map_key, List.map_map]
    rfl
  constructor
  · intro hne
    obtain ⟨e, E2, hE⟩ := List.exists_cons_of_ne_nil hne
    refine ⟨?_, ?_, ?_⟩
    · rw [hlen, hE, List.map_cons, accumOpt_cons, accumOpt_some, foldl_add_eq, List.sum_cons]
    · rw [hcnt, hE, List.map_cons, accumOpt_cons, accumOpt_some, foldl_add_eq, sum_map_one]
      congr 1
      rw [List.length_cons]
      push_cast
      ring
    · refine ⟨(E2.map (fun r => r.cov)).foldl max e.cov, ?_, ?_, ?_⟩
      · rw [hcov, hE, List.map_cons, accumOpt_cons, accumOpt_some]
      · rw [hE, List.map_cons]
        exact foldl_max_mem _ _
      · rw [hE, List.map_cons]
        exact le_foldl_max _ _
  · intro hnil
    rw [hlen, hcnt, hcov, hnil]
    exact ⟨rfl, rfl, rfl⟩

/-- Sample assembly rows for the aggregation witness: transcript `T1` has
two exon records and one `transcript` record (which must not count),
transcript `T2` has one exon record. -/
def sampleExonRows : List ExonRow :=
  [{ feature := "exon", start := 11, stop := 20, gene_id := "G1",
     transcript_id := "T1", cov := 4 },
   { feature := "transcript", start := 11, stop := 40, gene_id := "G1",
     transcript_id := "T1", cov := 9 },
   { feature := "exon", start := 31, stop := 40, gene_id := "G1",
     transcript_id := "T1", cov := 7 },
   { feature := "exon", start := 1, stop := 5, gene_id := "G2",
     transcript_id := "T2", cov := 3 }]

/-- Witness for C5: the aggregation theorem evaluated on `sampleExonRows`. -/
theorem transcript_aggregation_witness :
    alookup "T1" (t_length sampleExonRows) = some 20
    ∧ alookup "T1" (t_num_exons sampleExonRows) = some 2
    ∧ (∃ m, alookup "T1" (t_coverage sampleExonRows) = some m
        ∧ m ∈ ((exonRows sampleExonRows).filter
            (fun r => r.transcript_id == "T1")).map (fun r => r.cov)
        ∧ ∀ c ∈ ((exonRows sampleExonRows).filter
            (fun r => r.transcript_id == "T1")).map (fun r => r.cov), c ≤ m)
    ∧ alookup "TX" (t_length sampleExonRows) = none := by
  obtain ⟨ha, hb, hc⟩ := (transcript_aggregation sampleExonRows "T1").1 (by decide)
  exact ⟨ha.trans (by decide), hb.trans (by decide), hc,
    ((transcript_aggregation sampleExonRows "TX").2 (by decide)).1⟩

/-! ### Catalog Builder, gene identity resolution
(`fold_novel_lncs_into_input_gtfs`, lincer.py lines 241-249) -/

/-- `find?` returns the element at the first index satisfying the
predicate. -/
lemma find?_first {p : α → Bool} :
    ∀ (l : List α) (i : Nat) (hi : i < l.length),
      p (l.get ⟨i, hi⟩) = true →
      (∀ j, (hj : j < i) → p (l.get ⟨j, hj.trans hi⟩) = false) →
      l.find? p = some (l.get ⟨i, hi⟩) := by
  intro l
  induction l with
  | nil => intro i hi; exact absurd hi (Nat.not_lt_zero i)
  | cons a t ih =>
    intro i hi hp hmin
    cases i with
    | zero =>
      have hpa : p a = true := hp
      simp [List.find?, hpa]
    | succ n =>
      have ha : p a = false := hmin 0 (Nat.succ_pos n)
      have hi2 : n < t.length := Nat.lt_of_succ_lt_succ hi
      have hp2 : p (t.get ⟨n, hi2⟩) = true := hp
      have hmin2 : ∀ j, (hj : j < n) → p (t.get ⟨j, hj.trans hi2⟩) = false := by
        intro j hj
        exact hmin (j + 1) (Nat.succ_lt_succ hj)
      have hrec := ih n hi2 hp2 hmin2
      simp [List.find?, ha]
      exact hrec

/-- When the mapped keys are pairwise distinct, `find?` on a key match
returns the unique element carrying that key. -/
lemma find?_of_nodup_keys {f : α → String} {k : String} :
    ∀ l : List α, (l.map f).Nodup → ∀ a ∈ l, f a = k →
      l.find? (fun x => f x == k) = some a := by
  intro l
  induction l with
  | nil => intro _ a ha; exact absurd ha (List.not_mem_nil a)
  | cons b t ih =>
    intro hnd a ha hfa
    rw [List.map_cons, List.nodup_cons] at hnd
    obtain ⟨hbn, hnd2⟩ := hnd
    rcases List.mem_cons.mp ha with rfl | ha2
    · simp [List.find?, hfa]
    · have hfb : (f b == k) = false := by
        rw [beq_eq_false_iff_ne]
        intro he
        have hba : f b = f a := he.trans hfa.symm
        exact hbn (hba.symm ▸ List.mem_map_of_mem f ha2)
      simp [List.find?, hfb]
      exact ih hnd2 a ha2 hfa

/-- One row of the known-lncRNA table (lines 216-222): `gene_id` and
`gene_name` extracted from the attribute column of an exon line. -/
structure KnownRow where
  gene_id : String
  gene_name : String
deriving DecidableEq, Repr

/-- One row of `novel_transcripts.tsv` (line 235): the classification table
indexed by `transcript_id`; `ref_gene_id__lnc` may be missing (NaN). -/
structure AnnotRow where
  transcript_id : String
  classification : String
  ref_gene_id__lnc : Option String
deriving DecidableEq, Repr

/-- One row of the merged novel GTF (lines 229-232). -/
structure NovelRow where
  transcript_id : String
  gene_id : String
deriving DecidableEq, Repr

/-- A novel-isoform row after gene identity resolution (lines 248-249):
`gene_name` and `gene_id` may be missing (NaN), modelled by `none`. -/
structure IsoOut where
  transcript_id : String
  gene_name : Option String
  gene_id : Option String
deriving DecidableEq, Repr

/-- Line 246: `trans_id_to_gene_name = novel_trans_annots.ref_gene_id__lnc`,
used through `Series.map` — lookup by `transcript_id`, `NaN` when absent. -/
def transIdToGeneName (annots : List AnnotRow) (tid : String) : Option String :=
  (annots.find? (fun a => a.transcript_id == tid)).bind (fun a => a.ref_gene_id__lnc)

/-- Line 247: `known_trans_gtf[['gene_name', 'gene_id']]
.groupby('gene_name').first().gene_id` — the first `gene_id` occurring with
the given `gene_name`, `NaN` when the name never occurs. -/
def geneNameToGeneId (known : List KnownRow) (name : String) : Option String :=
  (known.find? (fun k => k.gene_name == name)).map (fun k => k.gene_id)

/-- Line 242: transcript ids classified `novel_isoform`. -/
def novelIsoformSet (annots : List AnnotRow) : List String :=
  (annots.filter (fun a => a.classification == "novel_isoform")).map
    (fun a => a.transcript_id)

/-- Lines 243-249: restrict the novel GTF rows to the novel-isoform set,
then map `gene_name` through the classification table and `gene_id` through
the known-lncRNA first-occurrence table. -/
def processNovelIsoforms (annots : List AnnotRow) (novel : List NovelRow)
    (known : List KnownRow) : List IsoOut :=
  (novel.filter (fun r => (novelIsoformSet annots).contains r.transcript_id)).map
    (fun r =>
      { transcript_id := r.transcript_id,
        gene_name := transIdToGeneName annots r.transcript_id,
        gene_id := (transIdToGeneName annots r.transcript_id).bind (geneNameToGeneId known) })

/-- C9: every novel-isoform transcript yields an output row whose
`gene_name` is the matched known-lncRNA gene (`ref_gene_id__lnc` of its
classification row, when transcript ids are unique), and whose `gene_id` is
the `gene_id` of the first known-table row carrying that `gene_name`; when
no known-table row carries the name, the row is still produced with an
absent (`none`) `gene_id`. -/
theorem catalog_gene_resolution (annots : List AnnotRow) (novel : List NovelRow)
    (known : List KnownRow) (r : NovelRow) (hr : r ∈ novel)
    (hiso : (novelIsoformSet annots).contains r.transcript_id = true) :
    ∃ o ∈ processNovelIsoforms annots novel known,
      o.transcript_id = r.transcript_id
      ∧ o.gene_name = transIdToGeneName annots r.transcript_id
      ∧ ((annots.map (fun a => a.transcript_id)).Nodup →
          ∀ a ∈ annots, a.transcript_id = r.transcript_id →
            o.gene_name = a.ref_gene_id__lnc)
      ∧ ∀ name, o.gene_name = some name →
          ((∀ k ∈ known, k.gene_name ≠ name) → o.gene_id = none)
          ∧ ∀ i, (hi : i < known.length) → (known.get ⟨i, hi⟩).gene_name = name →
              (∀ j, (hj : j < i) → (known.get ⟨j, hj.trans hi⟩).gene_name ≠ name) →
              o.gene_id = some (known.get ⟨i, hi⟩).gene_id := by
  refine ⟨{ transcript_id := r.transcript_id,
            gene_name := transIdToGeneName annots r.transcript_id,
            gene_id := (transIdToGeneName annots r.transcript_id).bind
              (geneNameToGeneId known) },
          List.mem_map_of_mem _ (List.mem_filter.mpr ⟨hr, hiso⟩), rfl, rfl, ?_, ?_⟩
  · intro hnd a ha hat
    show transIdToGeneName annots r.transcript_id = a.ref_gene_id__lnc
    rw [transIdToGeneName, find?_of_nodup_keys annots hnd a ha hat]
    rfl
  · intro name hname
    have hgid : (transIdToGeneName annots r.transcript_id).bind (geneNameToGeneId known)
        = geneNameToGeneId known name := by
      show (transIdToGeneName annots r.transcript_id).bind (geneNameToGeneId known) = _
      rw [show transIdToGeneName annots r.transcript_id = some name from hname]
      rfl
    constructor
    · intro hno
      show (transIdToGeneName annots r.transcript_id).bind (geneNameToGeneId known) = none
      rw [hgid, geneNameToGeneId, List.find?_eq_none.mpr]
      · rfl
      · intro k hk
        simp [hno k hk]
    · intro i hi hgi hfirst
      show (transIdToGeneName annots r.transcript_id).bind (geneNameToGeneId known)
        = some (known.get ⟨i, hi⟩).gene_id
      rw [hgid, geneNameToGeneId,
        find?_first known i hi (by simpa using hgi) (fun j hj => by simpa using hfirst j hj)]
      rfl

/-- Known-lncRNA table for the C9 witness: two rows share the gene name
`LINC1`, so the first occurrence (`ENSG1`) must win. -/
def sampleKnownRows : List KnownRow :=
  [{ gene_id := "ENSG1", gene_name := "LINC1" },
   { gene_id := "ENSG2", gene_name := "LINC1" }]

/-- Classification table for the C9 witness: `TC1` matches `LINC1`, `TC2`
matches a gene name absent from the known table. -/
def sampleAnnotRows : List AnnotRow :=
  [{ transcript_id := "TC1", classification := "novel_isoform",
     ref_gene_id__lnc := some "LINC1" },
   { transcript_id := "TC2", classification := "novel_isoform",
     ref_gene_id__lnc := some "NOVELX" }]

/-- Novel GTF rows for the C9 witness. -/
def sampleNovelRows : List NovelRow :=
  [{ transcript_id := "TC1", gene_id := "XLOC_1" },
   { transcript_id := "TC2", gene_id := "XLOC_2" }]

/-- Witness for C9: `TC1` resolves to the first `LINC1` entry (`ENSG1`);
`TC2`, whose matched name is missing from the known table, is still emitted
and carries an absent `gene_id`. -/
theorem catalog_gene_resolution_witness :
    (∃ o ∈ processNovelIsoforms sampleAnnotRows sampleNovelRows sampleKnownRows,
      o.transcript_id = "TC1" ∧ o.gene_name = some "LINC1" ∧ o.gene_id = some "ENSG1")
    ∧ (∃ o ∈ processNovelIsoforms sampleAnnotRows sampleNovelRows sampleKnownRows,
      o.transcript_id = "TC2" ∧ o.gene_name = some "NOVELX" ∧ o.gene_id = none) := by
  constructor
  · obtain ⟨o, hmem, hot, hon, _, hname⟩ := catalog_gene_resolution sampleAnnotRows
      sampleNovelRows sampleKnownRows { transcript_id := "TC1", gene_id := "XLOC_1" }
      (by decide) (by decide)
    have hgn : o.gene_name = some "LINC1" := hon.trans (by decide)
    have hid := (hname "LINC1" hgn).2 0 (by decide) (by decide)
      (fun j hj => absurd hj (Nat.not_lt_zero j))
    exact ⟨o, hmem, hot, hgn, hid.trans (by decide)⟩
  · obtain ⟨o, hmem, hot, hon, _, hname⟩ := catalog_gene_resolution sampleAnnotRows
      sampleNovelRows sampleKnownRows { transcript_id := "TC2", gene_id := "XLOC_2" }
      (by decide) (by decide)
    have hgn : o.gene_name = some "NOVELX" := hon.trans (by decide)
    have hid := (hname "NOVELX" hgn).1 (by decide)
    exact ⟨o, hmem, hot, hgn, hid⟩

/-! ### Catalog Builder, sort invariant
(`fold_novel_lncs_into_input_gtfs`, lincer.py lines 274-277)

The merged table is sorted by `df.sort([0, 'start_pos', 'gene_id',
'transcript_id'])` where `start_pos` is the per-`gene_id` minimum of the
start column (line 274).  A catalog row keeps the columns the sort reads:
chromosome (column 0), start (column 3), `gene_id`, `transcript_id`. -/

structure CatRow where
  chrom : String
  start : Int
  gene_id : String
  transcript_id : String
deriving DecidableEq, Repr

/-- Line 274: `df.groupby('gene_id')[[3]].min()`. -/
def geneStartPos (rows : List CatRow) : List (String × Int) :=
  groupFold min (rows.map (fun r => (r.gene_id, r.start)))

/-- The `start_pos` column merged back onto a row of gene `g` (line 275);
every gene of the table has a group, so the default is never read. -/
def startPosOf (rows : List CatRow) (g : String) : Int :=
  (alookup g (geneStartPos rows)).getD 0

/-- The four-column sort key of line 276. -/
def catKey (rows : List CatRow) (r : CatRow) : String × Int × String × String :=
  (r.chrom, startPosOf rows r.gene_id, r.gene_id, r.transcript_id)

/-- Lexicographic order on the four-column sort key (ascending, pandas
`DataFrame.sort` on a column list). -/
def keyLe (a b : String × Int × String × String) : Prop :=
  a.1 < b.1 ∨ (a.1 = b.1 ∧
    (a.2.1 < b.2.1 ∨ (a.2.1 = b.2.1 ∧
      (a.2.2.1 < b.2.2.1 ∨ (a.2.2.1 = b.2.2.1 ∧ a.2.2.2 ≤ b.2.2.2)))))

instance : DecidableRel keyLe := fun a b => by
  unfold keyLe
  infer_instance

lemma keyLe_total (a b : String × Int × String × String) : keyLe a b ∨ keyLe b a := by
  unfold keyLe
  rcases lt_trichotomy a.1 b.1 with h | h | h
  · exact Or.inl (Or.inl h)
  · rcases lt_trichotomy a.2.1 b.2.1 with h2 | h2 | h2
    · exact Or.inl (Or.inr ⟨h, Or.inl h2⟩)
    · rcases lt_trichotomy a.2.2.1 b.2.2.1 with h3 | h3 | h3
      · exact Or.inl (Or.inr ⟨h, Or.inr ⟨h2, Or.inl h3⟩⟩)
      · rcases le_total a.2.2.2 b.2.2.2 with h4 | h4
        · exact Or.inl (Or.inr ⟨h, Or.inr ⟨h2, Or.inr ⟨h3, h4⟩⟩⟩)
        · exact Or.inr (Or.inr ⟨h.symm, Or.inr ⟨h2.symm, Or.inr ⟨h3.symm, h4⟩⟩⟩)
      · exact Or.inr (Or.inr ⟨h.symm, Or.inr ⟨h2.symm, Or.inl h3⟩⟩)
    · exact Or.inr (Or.inr ⟨h.symm, Or.inl h2⟩)
  · exact Or.inr (Or.inl h)

lemma keyLe_trans {a b c : String × Int × String × String}
    (h1 : keyLe a b) (h2 : keyLe b c) : keyLe a c := by
  unfold keyLe at h1 h2 ⊢
  rcases h1 with h1 | ⟨e1, h1⟩
  · rcases h2 with h2 | ⟨e2, _⟩
    · exact Or.inl (h1.trans h2)
    · exact Or.inl (lt_of_lt_of_eq h1 e2)
  · rcases h2 with h2 | ⟨e2, h2⟩
    · exact Or.inl (lt_of_eq_of_lt e1 h2)
    · refine Or.inr ⟨e1.trans e2, ?_⟩
      rcases h1 with h1 | ⟨f1, h1⟩
      · rcases h2 with h2 | ⟨f2, _⟩
        · exact Or.inl (h1.trans h2)
        · exact Or.inl (lt_of_lt_of_eq h1 f2)
      · rcases h2 with h2 | ⟨f2, h2⟩
        · exact Or.inl (lt_of_eq_of_lt f1 h2)
        · refine Or.inr ⟨f1.trans f2, ?_⟩
          rcases h1 with h1 | ⟨g1, h1⟩
          · rcases h2 with h2 | ⟨g2, _⟩
            · exact Or.inl (h1.trans h2)
            · exact Or.inl (lt_of_lt_of_eq h1 g2)
          · rcases h2 with h2 | ⟨g2, h2⟩
            · exact Or.inl (lt_of_eq_of_lt g1 h2)
            · exact Or.inr ⟨g1.trans g2, h1.trans h2⟩

lemma keyLe_fst_le {a b : String × Int × String × String} (h : keyLe a b) :
    a.1 ≤ b.1 := by
  rcases h with h | ⟨e, _⟩
  · exact h.le
  · exact e.le

lemma keyLe_snd_le {a b : String × Int × String × String} (h : keyLe a b)
    (e : a.1 = b.1) : a.2.1 ≤ b.2.1 := by
  rcases h with h | ⟨_, h⟩
  · exact absurd h (by rw [e]; exact lt_irrefl _)
  · rcases h with h | ⟨e2, _⟩
    · exact h.le
    · exact e2.le

lemma keyLe_trd_le {a b : String × Int × String × String} (h : keyLe a b)
    (e1 : a.1 = b.1) (e2 : a.2.1 = b.2.1) : a.2.2.1 ≤ b.2.2.1 := by
  rcases h with h | ⟨_, h⟩
  · exact absurd h (by rw [e1]; exact lt_irrefl _)
  · rcases h with h | ⟨_, h⟩
    · exact absurd h (by rw [e2]; exact lt_irrefl _)
    · rcases h with h | ⟨e3, _⟩
      · exact h.le
      · exact e3.le

/-- A key between two keys with equal first three components shares those
components. -/
lemma keyLe_squeeze {a b c : String × Int × String × String}
    (h1 : keyLe a b) (h2 : keyLe b c)
    (e1 : a.1 = c.1) (e2 : a.2.1 = c.2.1) (e3 : a.2.2.1 = c.2.2.1) :
    b.1 = a.1 ∧ b.2.1 = a.2.1 ∧ b.2.2.1 = a.2.2.1 := by
  have hb1 : b.1 = a.1 :=
    le_antisymm (e1.symm ▸ keyLe_fst_le h2) (keyLe_fst_le h1)
  have hab1 : a.1 = b.1 := hb1.symm
  have hbc1 : b.1 = c.1 := hb1.trans e1
  have hb2 : b.2.1 = a.2.1 :=
    le_antisymm (e2.symm ▸ keyLe_snd_le h2 hbc1) (keyLe_snd_le h1 hab1)
  have hab2 : a.2.1 = b.2.1 := hb2.symm
  have hbc2 : b.2.1 = c.2.1 := hb2.trans e2
  have hb3 : b.2.2.1 = a.2.2.1 :=
    le_antisymm (e3.symm ▸ keyLe_trd_le h2 hbc1 hbc2) (keyLe_trd_le h1 hab1 hab2)
  exact ⟨hb1, hb2, hb3⟩

/-- The row order of line 276, with `start_pos` computed from the whole
table. -/
def rowLe (rows : List CatRow) (a b : CatRow) : Prop :=
  keyLe (catKey rows a) (catKey rows b)

instance (rows : List CatRow) : DecidableRel (rowLe rows) := fun a b => by
  unfold rowLe
  infer_instance

/-- Line 276: `df.sort([0, 'start_pos', 'gene_id', 'transcript_id'])`. -/
def catalogSort (rows : List CatRow) : List CatRow :=
  List.insertionSort (rowLe rows) rows

/-- The minimum start of a gene, per `startPosOf`, is a lower bound of the
gene's starts and is attained by one of the gene's rows. -/
lemma startPosOf_spec (rows : List CatRow) (r : CatRow) (hr : r ∈ rows) :
    startPosOf rows r.gene_id ≤ r.start
    ∧ ∃ s ∈ rows, s.gene_id = r.gene_id ∧ startPosOf rows r.gene_id = s.start := by
  have hkey : alookup r.gene_id (geneStartPos rows)
      = accumOpt min none
          ((rows.filter (fun t => t.gene_id == r.gene_id)).map (fun t => t.start)) := by
    rw [geneStartPos, alookup_groupFold, filter_map_key, List.map_map]
    rfl
  have hrF : r ∈ rows.filter (fun t => t.gene_id == r.gene_id) :=
    List.mem_filter.mpr ⟨hr, by simp⟩
  obtain ⟨e, F2, hF⟩ := List.exists_cons_of_ne_nil (List.ne_nil_of_mem hrF)
  have hsp : startPosOf rows r.gene_id = (F2.map (fun t => t.start)).foldl min e.start := by
    rw [startPosOf, hkey, hF, List.map_cons, accumOpt_cons, accumOpt_some]
    rfl
  constructor
  · rw [hsp]
    have hrs : r.start ∈ e.start :: F2.map (fun t => t.start) := by
      rw [← List.map_cons, ← hF]
      exact List.mem_map_of_mem _ hrF
    exact foldl_min_le _ _ _ hrs
  · have hm := foldl_min_mem e.start (F2.map (fun t => t.start))
    rw [← List.map_cons, ← hF] at hm
    obtain ⟨s, hsF, hse⟩ := List.mem_map.mp hm
    have hsmem := List.mem_filter.mp hsF
    exact ⟨s, hsmem.1, by simpa using hsmem.2, hsp.trans hse.symm⟩

/-- C8: the final catalog is a permutation of its input rows, sorted
ascending by (chromosome, per-gene minimum start, `gene_id`,
`transcript_id`); the per-gene start is the minimum start over the gene's
rows; and — provided each `gene_id` lives on a single chromosome — all rows
of a `gene_id` are contiguous in the sorted output. -/
theorem catalog_sort_invariant (rows : List CatRow)
    (hchrom : ∀ r ∈ rows, ∀ s ∈ rows, r.gene_id = s.gene_id → r.chrom = s.chrom) :
    List.Perm (catalogSort rows) rows
    ∧ List.Sorted (rowLe rows) (catalogSort rows)
    ∧ (∀ r ∈ rows, startPosOf rows r.gene_id ≤ r.start
        ∧ ∃ s ∈ rows, s.gene_id = r.gene_id ∧ startPosOf rows r.gene_id = s.start)
    ∧ (∀ i j k, (hij : i < j) → (hjk : j < k) → (hk : k < (catalogSort rows).length) →
        ((catalogSort rows).get ⟨i, lt_trans (lt_trans hij hjk) hk⟩).gene_id
          = ((catalogSort rows).get ⟨k, hk⟩).gene_id →
        ((catalogSort rows).get ⟨j, lt_trans hjk hk⟩).gene_id
          = ((catalogSort rows).get ⟨i, lt_trans (lt_trans hij hjk) hk⟩).gene_id) := by
  haveI : IsTotal CatRow (rowLe rows) := ⟨fun a b => keyLe_total _ _⟩
  haveI : IsTrans CatRow (rowLe rows) := ⟨fun _ _ _ hab hbc => keyLe_trans hab hbc⟩
  have hperm : List.Perm (catalogSort rows) rows := List.perm_insertionSort _ _
  have hsort : List.Sorted (rowLe rows) (catalogSort rows) :=
    List.sorted_insertionSort _ _
  refine ⟨hperm, hsort, fun r hr => startPosOf_spec rows r hr, ?_⟩
  intro i j k hij hjk hk hik
  have hpw := List.pairwise_iff_get.mp hsort
  have h1 : rowLe rows ((catalogSort rows).get ⟨i, lt_trans (lt_trans hij hjk) hk⟩)
      ((catalogSort rows).get ⟨j, lt_trans hjk hk⟩) :=
    hpw _ _ (Fin.mk_lt_mk.mpr hij)
  have h2 : rowLe rows ((catalogSort rows).get ⟨j, lt_trans hjk hk⟩)
      ((catalogSort rows).get ⟨k, hk⟩) :=
    hpw _ _ (Fin.mk_lt_mk.mpr hjk)
  have hmi : ((catalogSort rows).get ⟨i, lt_trans (lt_trans hij hjk) hk⟩) ∈ rows :=
    hperm.subset (List.get_mem _ _ _)
  have hmk : ((catalogSort rows).get ⟨k, hk⟩) ∈ rows :=
    hperm.subset (List.get_mem _ _ _)
  have hchr : ((catalogSort rows).get ⟨i, lt_trans (lt_trans hij hjk) hk⟩).chrom
      = ((catalogSort rows).get ⟨k, hk⟩).chrom :=
    hchrom _ hmi _ hmk hik
  have hstart : startPosOf rows
        ((catalogSort rows).get ⟨i, lt_trans (lt_trans hij hjk) hk⟩).gene_id
      = startPosOf rows ((catalogSort rows).get ⟨k, hk⟩).gene_id := by
    rw [hik]
  exact (keyLe_squeeze h1 h2 hchr hstart hik).2.2

/-- Catalog rows for the C8 witness: two genes on two chromosomes. -/
def sampleCatRows : List CatRow :=
  [{ chrom := "chr2", start := 100, gene_id := "G2", transcript_id := "T3" },
   { chrom := "chr1", start := 50, gene_id := "G1", transcript_id := "T2" },
   { chrom := "chr1", start := 10, gene_id := "G1", transcript_id := "T1" }]

/-- Witness for C8: the sort invariant applied to `sampleCatRows`. -/
theorem catalog_sort_invariant_witness :
    List.Perm (catalogSort sampleCatRows) sampleCatRows
    ∧ List.Sorted (rowLe sampleCatRows) (catalogSort sampleCatRows)
    ∧ (startPosOf sampleCatRows "G1" = 10 ∧ startPosOf sampleCatRows "G2" = 100) := by
  have h := catalog_sort_invariant sampleCatRows (by decide)
  exact ⟨h.1, h.2.1, by decide, by decide⟩

end Lincer
